import Mathlib

/-!
Verification development for a market-data / trading pipeline.

The development shallowly embeds the Python sources:
  - `data_processor.py` (class `MarketDataProcessor`): scalar/sequence
    extraction, trend tagging, indicator processing guards, and the
    analysis-payload assembly `get_analysis_payload`;
  - `main.py`: the market-data cache (`MarketDataManager`), the tolerant
    JSON response parser `_parse_json_response`, the decision-field
    defaulting in `run_analysis`, and the order sizing in `execute_order`.

Modelling conventions:
  - Python floats are idealised as exact rationals; the special values
    NaN / +inf / -inf are modelled explicitly by the `PyFloat` type.
    `round(x, 4)` is modelled as round-half-to-even at 4 decimal places.
  - Strings are modelled as `List Char`.
  - Code that can raise an exception which escapes the modelled function
    returns `Option`/`Except`; `none` (resp. `.error`) marks the raise.
  - External collaborators (the `pandas_ta` indicator library, the
    brokerage SDK, wall-clock time) are inputs of the embedded functions.
-/

abbrev Chars := List Char

/-! ## Python float model -/

/-- A Python float: either an exact rational value or one of the
non-finite values NaN, +Infinity, -Infinity. -/
inductive PyFloat where
  | nan : PyFloat
  | inf : PyFloat
  | ninf : PyFloat
  | val : ℚ → PyFloat
deriving DecidableEq, Repr

/-- The integer nearest to `q * 10000`, ties to even (the rounding of
Python `round(x, 4)`), computed on the numerator and denominator so that
it evaluates by kernel reduction: `f` is the floor of `q * 10000` and
`r2` compares twice the fractional remainder against the denominator. -/
def rnd4Int (q : ℚ) : ℤ :=
  let n := q.num * 10000
  let d := Int.ofNat q.den
  let f := Int.fdiv n d
  let r2 := 2 * (n - f * d)
  if r2 < d then f
  else if d < r2 then f + 1
  else if f % 2 = 0 then f else f + 1

/-- Model of Python `round(x, 4)`: round half to even at 4 decimal
places. -/
def round4 (q : ℚ) : ℚ := Rat.divInt (rnd4Int q) 10000

/-- Model of Python `int(x)` on a float: truncation toward zero. -/
def pyTrunc (q : ℚ) : ℤ := q.num.tdiv (Int.ofNat q.den)

/-! ## `data_processor.py`: the standardisation layer -/

/-- `MarketDataProcessor._extract_val` on a scalar argument.
`none` models the Python value `None` (or a missing value); the
NaN/Infinity cases fall back to the configured default, exactly as the
source does after `float()` conversion. -/
def extractVal (value : Option PyFloat) (default : Option ℚ) : Option ℚ :=
  match value with
  | none => default
  | some .nan => default
  | some .inf => default
  | some .ninf => default
  | some (.val q) => some (round4 q)

/-- `MarketDataProcessor._extract_val` on a Series argument: the source
takes the last element of the series (default if empty), then proceeds as
in the scalar case. -/
def extractValSeries (xs : List PyFloat) (default : Option ℚ) : Option ℚ :=
  match xs.getLast? with
  | none => default
  | some v => extractVal (some v) default

/-- `Series.tail(n)` in pandas: the last `n` entries. -/
def pyTail (xs : List PyFloat) (n : ℕ) : List PyFloat := xs.drop (xs.length - n)

/-- The filter used in `_extract_seq`'s list comprehension:
`pd.notnull(x) and not np.isinf(float(x))`, i.e. the entry is a finite
numeric value. -/
def isDefinedF : PyFloat → Bool
  | .val _ => true
  | _ => false

/-- Numeric value of a defined `PyFloat` (only used under `isDefinedF`). -/
def pyFloatVal : PyFloat → ℚ
  | .val q => q
  | _ => 0

/-- `MarketDataProcessor._extract_seq`: take the last `length` entries of
the series, keep those that are finite, round each kept value to 4
decimals.  `none` models passing `None`; an empty series also yields `[]`. -/
def extractSeq (series : Option (List PyFloat)) (length : ℕ) : List ℚ :=
  match series with
  | none => []
  | some xs => ((pyTail xs length).filter isDefinedF).map (fun x => round4 (pyFloatVal x))

/-- The sequence extraction as worded by the specification: "takes the
last N defined values", i.e. first discard the non-finite entries of the
whole series and then keep the last `length` of the surviving values
(each rounded to 4 decimals).  Used to compare the spec wording with the
source behaviour. -/
def extractSeqSpecLastDefined (xs : List PyFloat) (length : ℕ) : List ℚ :=
  let defined := (xs.filter isDefinedF).map (fun x => round4 (pyFloatVal x))
  defined.drop (defined.length - length)

/-- `MarketDataProcessor._get_trend_tag`.  The arguments arrive already
extracted (`Option ℚ`); `float(None)` raises in the source, which the
bare `except` turns into `"Unknown"`. -/
def getTrendTag (price maShort maLong : Option ℚ) : Chars :=
  match price, maShort, maLong with
  | some p, some ms, some ml =>
    if p > ms ∧ ms > ml then "Bullish_Strong".data
    else if p < ms ∧ ms < ml then "Bearish_Strong".data
    else if p > ml ∧ p < ms then "Correction_Bullish".data
    else if p < ml ∧ p > ms then "Rebound_Bearish".data
    else "Consolidation".data
  | _, _, _ => "Unknown".data

/-! ## Bar tables (pandas DataFrames) -/

/-- One OHLCV row of a bar table (after the cache's column renaming). -/
structure Bar where
  op : PyFloat
  hi : PyFloat
  lo : PyFloat
  close : PyFloat
  volume : PyFloat
deriving DecidableEq, Repr

/-- A bar table: the OHLCV rows plus derived indicator columns, each
derived column stored by name, aligned index-for-index with the rows. -/
structure Df where
  core : List Bar
  derived : List (Chars × List PyFloat)
deriving DecidableEq, Repr

/-- `len(df)`. -/
def Df.len (df : Df) : ℕ := df.core.length

/-- The `Close` column. -/
def Df.closes (df : Df) : List PyFloat := df.core.map Bar.close

/-- Look up a derived column by name (first match, as column labels are
unique in a DataFrame). -/
def colGet : List (Chars × List PyFloat) → Chars → Option (List PyFloat)
  | [], _ => none
  | (n, c) :: rest, k => if n = k then some c else colGet rest k

/-- `df.iloc[:-1]`: drop the final row (and the final entry of every
derived column). -/
def dropLastDf (df : Df) : Df :=
  { core := df.core.dropLast
    derived := df.derived.map (fun p => (p.1, p.2.dropLast)) }

/-- `df.iloc[-k]` (`k ≥ 1`): `none` models the `IndexError` raised when
the table has fewer than `k` rows. -/
def ilocNeg (df : Df) (k : ℕ) : Option Bar :=
  if k ≤ df.len then df.core.get? (df.len - k) else none

/-- `df.iloc[-k].get(name)` for a derived column: `None` when the column
is absent (Python `Series.get` does not raise). -/
def rowDerivedNeg (df : Df) (name : Chars) (k : ℕ) : Option PyFloat :=
  if k ≤ df.len then (colGet df.derived name).bind (fun col => col.get? (df.len - k)) else none

/-- A derived column is aligned with the rows. -/
def Df.wellFormed (df : Df) : Prop :=
  ∀ p ∈ df.derived, (p.2 : List PyFloat).length = df.core.length

instance (df : Df) : Decidable df.wellFormed := by
  unfold Df.wellFormed; infer_instance

/-! ## Indicator processing (`_process_intraday_indicators`,
`_process_longterm_indicators`)

The `pandas_ta` functions are external collaborators; they are passed in
as an explicit structure of column-producing functions. -/

/-- The fields of the `ta.macd(close)` result that the source reads. -/
structure MacdOut where
  line : List PyFloat
  hist : List PyFloat

/-- The interface of the `pandas_ta` functions used by the source.
`macd` returns `none` to model `ta.macd` returning `None`. -/
structure TALib where
  ema : List PyFloat → ℕ → List PyFloat
  rsi : List PyFloat → ℕ → List PyFloat
  atr : List PyFloat → List PyFloat → List PyFloat → ℕ → List PyFloat
  macd : List PyFloat → Option MacdOut

/-- `df[name] = col`: overwrite the column if present, else append it. -/
def setColAux : List (Chars × List PyFloat) → Chars → List PyFloat → List (Chars × List PyFloat)
  | [], k, v => [(k, v)]
  | (n, c) :: rest, k, v => if n = k then (k, v) :: rest else (n, c) :: setColAux rest k v

/-- Assign a derived column of a bar table. -/
def setCol (df : Df) (k : Chars) (v : List PyFloat) : Df :=
  { df with derived := setColAux df.derived k v }

/-- `MarketDataProcessor._process_intraday_indicators`: skipped entirely
when the table is shorter than 20 rows. -/
def processIntradayIndicators (ta : TALib) (df : Df) : Df :=
  if df.len < 20 then df
  else
    let closes := df.closes
    let d1 := setCol df "EMA20".data (ta.ema closes 20)
    let d2 :=
      match ta.macd closes with
      | some m => setCol (setCol d1 "MACD_Hist".data m.hist) "MACD_Line".data m.line
      | none => d1
    let d3 := setCol d2 "RSI7".data (ta.rsi closes 7)
    setCol d3 "RSI14".data (ta.rsi closes 14)

/-- `MarketDataProcessor._process_longterm_indicators`: skipped entirely
when the table is shorter than 50 rows. -/
def processLongtermIndicators (ta : TALib) (df : Df) : Df :=
  if df.len < 50 then df
  else
    let closes := df.closes
    let highs := df.core.map Bar.hi
    let lows := df.core.map Bar.lo
    let d1 := setCol df "EMA20".data (ta.ema closes 20)
    let d2 := setCol d1 "EMA50".data (ta.ema closes 50)
    let d3 := setCol d2 "ATR3".data (ta.atr highs lows closes 3)
    let d4 := setCol d3 "ATR14".data (ta.atr highs lows closes 14)
    let d5 :=
      match ta.macd closes with
      | some m => setCol d4 "MACD".data m.line
      | none => d4
    setCol d5 "RSI14".data (ta.rsi closes 14)

/-! ## JSON values

A model of the Python JSON object universe (`json.loads` results and
`json.dumps` inputs).  Python distinguishes `int` from `float`; so does
the model. -/

inductive Json where
  | null : Json
  | bool : Bool → Json
  | int : ℤ → Json
  | num : ℚ → Json
  | str : Chars → Json
  | arr : List Json → Json
  | obj : List (Chars × Json) → Json

/-- Whether a JSON value is an object (a Python `dict`). -/
def Json.isObj : Json → Bool
  | .obj _ => true
  | _ => false

/-- Python `dict` lookup with default (`d.get(k, default)`): when the
parsed object text contains duplicate keys, the later binding wins, as it
does when Python builds the dict. -/
def dictGetD (kvs : List (Chars × Json)) (k : Chars) (default : Json) : Json :=
  kvs.foldl (fun acc p => if p.1 = k then p.2 else acc) default

/-- Python `dict` lookup (`d.get(k)` / `k in d`): later binding wins. -/
def dictGet? (kvs : List (Chars × Json)) (k : Chars) : Option Json :=
  kvs.foldl (fun acc p => if p.1 = k then some p.2 else acc) none

/-- Read a key of a JSON object. -/
def Json.objGet (j : Json) (k : Chars) : Option Json :=
  match j with
  | .obj kvs => dictGet? kvs k
  | _ => none

/-! ## `json.dumps(..., ensure_ascii=False, indent=2)` -/

/-- Decimal digits of a natural number (most significant first). -/
def natToCharsAux : ℕ → ℕ → Chars
  | 0, _ => []
  | _ + 1, 0 => []
  | fuel + 1, n => natToCharsAux fuel (n / 10) ++ [Char.ofNat (48 + n % 10)]

/-- Decimal representation of a natural number. -/
def natToChars (n : ℕ) : Chars :=
  if n = 0 then ['0'] else natToCharsAux (n + 1) n

/-- Decimal representation of an integer. -/
def intToChars (z : ℤ) : Chars :=
  if z < 0 then '-' :: natToChars z.natAbs else natToChars z.natAbs

/-- Strip trailing zeros of a digit run but keep at least one digit
(Python prints `10.0`, not `10.`). -/
def trimZeros (ds : Chars) : Chars :=
  let t := (ds.reverse.dropWhile (fun c => c = '0')).reverse
  if t = [] then ['0'] else t

/-- Left-pad a digit run with zeros to the given width. -/
def padZeros (w : ℕ) (ds : Chars) : Chars :=
  List.replicate (w - ds.length) '0' ++ ds

/-- Printed form of a float value.  All floats reaching `json.dumps` in
the payload carry at most 4 decimal places (they are `round(x, 4)`
results), which this printer renders exactly; other rationals are
truncated to 4 places.  The printer is a deterministic idealisation of
`repr(float)`. -/
def qToChars (q : ℚ) : Chars :=
  let sign : Chars := if q.num < 0 then ['-'] else []
  let scaled : ℕ := q.num.natAbs * 10000 / q.den
  let ip := scaled / 10000
  let fp := scaled % 10000
  sign ++ natToChars ip ++ '.' :: trimZeros (padZeros 4 (natToChars fp))

/-- JSON string escaping as `json.dumps` with `ensure_ascii=False`
performs it for the characters that occur in the payload. -/
def escChar (c : Char) : Chars :=
  if c = '"' then ['\\', '"']
  else if c = '\\' then ['\\', '\\']
  else if c = '\n' then ['\\', 'n']
  else if c = '\t' then ['\\', 't']
  else if c = '\r' then ['\\', 'r']
  else [c]

/-- Escape and quote a JSON string. -/
def dumpStr (s : Chars) : Chars := '"' :: (s.flatMap escChar) ++ ['"']

/-- Indentation run for one nesting level with `indent=2`. -/
def indentRun (lvl : ℕ) : Chars := List.replicate (2 * lvl) ' '

mutual

/-- `json.dumps(v, ensure_ascii=False, indent=2)` at nesting level `lvl`. -/
def dumpVal (lvl : ℕ) : Json → Chars
  | .null => "null".data
  | .bool b => if b then "true".data else "false".data
  | .int z => intToChars z
  | .num q => qToChars q
  | .str s => dumpStr s
  | .arr xs => dumpArr lvl xs
  | .obj kvs => dumpObj lvl kvs

/-- Array serialisation with `indent=2`. -/
def dumpArr (lvl : ℕ) (xs : List Json) : Chars :=
  match xs with
  | [] => "[]".data
  | x :: rest =>
    '[' :: '\n' :: indentRun (lvl + 1) ++ dumpVal (lvl + 1) x ++
      dumpArrRest lvl rest ++ '\n' :: indentRun lvl ++ [']']

/-- Remaining array items, each preceded by `",\n" ++ indent`. -/
def dumpArrRest (lvl : ℕ) (xs : List Json) : Chars :=
  match xs with
  | [] => []
  | x :: rest =>
    ',' :: '\n' :: indentRun (lvl + 1) ++ dumpVal (lvl + 1) x ++ dumpArrRest lvl rest

/-- Object serialisation with `indent=2`: keys in insertion order. -/
def dumpObj (lvl : ℕ) (kvs : List (Chars × Json)) : Chars :=
  match kvs with
  | [] => "\x7b\x7d".data
  | (k, v) :: rest =>
    '\x7b' :: '\n' :: indentRun (lvl + 1) ++ dumpStr k ++ ':' :: ' ' :: dumpVal (lvl + 1) v ++
      dumpObjRest lvl rest ++ '\n' :: indentRun lvl ++ ['\x7d']

/-- Remaining object entries. -/
def dumpObjRest (lvl : ℕ) (kvs : List (Chars × Json)) : Chars :=
  match kvs with
  | [] => []
  | (k, v) :: rest =>
    ',' :: '\n' :: indentRun (lvl + 1) ++ dumpStr k ++ ':' :: ' ' :: dumpVal (lvl + 1) v ++
      dumpObjRest lvl rest

end

/-- Top-level `json.dumps(payload, ensure_ascii=False, indent=2)`. -/
def dumps (j : Json) : Chars := dumpVal 0 j

/-! ## `get_analysis_payload` -/

/-- The quote dictionary handed to `MarketDataProcessor`
(`self.quote_data`).  `none` models the empty dict `{}` (the processor
replaces a falsy argument by `{}`); otherwise both keys are present, as
built by `MarketDataManager.get_realtime_snapshot`.  `mid_price` may hold
the Python value `None` (inner `none`); `open_interest` holds the raw
JSON-serialisable value stored by the snapshot. -/
structure QuoteDict where
  mid_price : Option PyFloat
  open_interest : Json

/-- `self.quote_data.get('mid_price')`. -/
def quoteMid (quote : Option QuoteDict) : Option PyFloat :=
  quote.bind QuoteDict.mid_price

/-- `self.quote_data.get('open_interest', "N/A")`. -/
def quoteOi (quote : Option QuoteDict) : Json :=
  match quote with
  | none => Json.str "N/A".data
  | some d => d.open_interest

/-- `Option ℚ` rendered as a JSON value (`None` becomes `null`). -/
def jsonOfOpt (o : Option ℚ) : Json :=
  match o with
  | none => Json.null
  | some q => Json.num q

/-- The `current_price` after the fallback logic at the top of
`get_analysis_payload`: keep a valid quote mid-price, otherwise fall back
to the close of the second-to-last intraday row.  The outer `none` models
the uncaught `IndexError` of `iloc[-2]` on a 1-row table. -/
def currentPriceStep (quote : Option QuoteDict) (intra : Option Df) : Option (Option PyFloat) :=
  let cp0 := quoteMid quote
  if (extractVal cp0 none).isNone then
    match intra with
    | some df => if df.len = 0 then some cp0 else (ilocNeg df 2).map (fun b => some b.close)
    | none => some cp0
  else some cp0

/-- The `price_sequence_60` list: the last row of the intraday table is
removed before the closes are extracted. -/
def priceSeqPart (intra : Option Df) : List ℚ :=
  match intra with
  | some df => extractSeq (some (dropLastDf df).closes) 60
  | none => []

/-- The `market_state` object of the payload. -/
def marketStatePart (quote : Option QuoteDict) (intra : Option Df) : Option Json :=
  (currentPriceStep quote intra).map (fun cp =>
    Json.obj
      [("price_current".data, jsonOfOpt (extractVal cp none)),
       ("open_interest".data, quoteOi quote),
       ("price_sequence_60".data, Json.arr ((priceSeqPart intra).map Json.num))])

/-- `int(self._extract_val(curr['Volume'], 0))`; the default `0` makes
the extraction total, so the `getD` branch is unreachable. -/
def volumeJson (b : Bar) : Json :=
  Json.int (pyTrunc ((extractVal (some b.volume) (some 0)).getD 0))

/-- The `intraday_5m` part of the payload: the string
`"Data Insufficient"` under 21 rows, otherwise the indicator object read
from the second-to-last (`curr`) and third-to-last (`prev`) rows and from
the table with its final row removed.  The outer `none` models the
`KeyError` raised by `df_completed['MACD_Hist']` / `df_completed['RSI7']`
when the column is absent. -/
def ind5mPart (intra : Option Df) : Option Json :=
  match intra with
  | none => some (Json.str "Data Insufficient".data)
  | some df =>
    if 20 < df.len then
      match ilocNeg df 2, colGet (dropLastDf df).derived "MACD_Hist".data,
            colGet (dropLastDf df).derived "RSI7".data with
      | some curr, some macdCol, some rsiCol =>
        some (Json.obj
          [("close".data, jsonOfOpt (extractVal (some curr.close) none)),
           ("volume".data, volumeJson curr),
           ("ema20".data, jsonOfOpt (extractVal (rowDerivedNeg df "EMA20".data 2) none)),
           ("macd_hist".data, jsonOfOpt (extractVal (rowDerivedNeg df "MACD_Hist".data 2) none)),
           ("macd_hist_prev".data, jsonOfOpt (extractVal (rowDerivedNeg df "MACD_Hist".data 3) none)),
           ("macd_hist_seq_10".data, Json.arr ((extractSeq (some macdCol) 10).map Json.num)),
           ("rsi7".data, jsonOfOpt (extractVal (rowDerivedNeg df "RSI7".data 2) none)),
           ("rsi14".data, jsonOfOpt (extractVal (rowDerivedNeg df "RSI14".data 2) none)),
           ("rsi7_seq_10".data, Json.arr ((extractSeq (some rsiCol) 10).map Json.num))])
      | _, _, _ => none
    else some (Json.str "Data Insufficient".data)

/-- The `longterm_4h` part of the payload, read from the second-to-last
row of the long-term table. -/
def ind4hPart (lt : Option Df) : Option Json :=
  match lt with
  | none => some (Json.str "Data Insufficient".data)
  | some df =>
    if 50 < df.len then
      match ilocNeg df 2 with
      | some curr =>
        let p := extractVal (some curr.close) none
        let e20 := extractVal (rowDerivedNeg df "EMA20".data 2) none
        let e50 := extractVal (rowDerivedNeg df "EMA50".data 2) none
        some (Json.obj
          [("trend_tag".data, Json.str (getTrendTag p e20 e50)),
           ("ema20".data, jsonOfOpt e20),
           ("ema50".data, jsonOfOpt e50),
           ("atr3".data, jsonOfOpt (extractVal (rowDerivedNeg df "ATR3".data 2) none)),
           ("atr14".data, jsonOfOpt (extractVal (rowDerivedNeg df "ATR14".data 2) none)),
           ("macd".data, jsonOfOpt (extractVal (rowDerivedNeg df "MACD".data 2) none)),
           ("rsi14".data, jsonOfOpt (extractVal (rowDerivedNeg df "RSI14".data 2) none))])
      | none => none
    else some (Json.str "Data Insufficient".data)

/-- The fixed `note` string of the payload. -/
def noteText : Chars :=
  "Analysis based on COMPLETED candles only (Lagged by 1 period).".data

/-- `MarketDataProcessor.get_analysis_payload` up to serialisation: the
payload object.  `now` is the wall-clock reading
`pd.Timestamp.now().strftime('%Y-%m-%d %H:%M:%S')`, an implicit input of
the source made explicit here.  `none` models an uncaught exception. -/
def getPayloadObj (sym now : Chars) (quote : Option QuoteDict) (intra lt : Option Df) :
    Option Json :=
  match marketStatePart quote intra, ind5mPart intra, ind4hPart lt with
  | some ms, some i5, some i4 =>
    some (Json.obj
      [("symbol".data, Json.str sym),
       ("timestamp".data, Json.str now),
       ("note".data, Json.str noteText),
       ("market_state".data, ms),
       ("indicators".data, Json.obj
         [("intraday_5m".data, i5), ("longterm_4h".data, i4)])])
  | _, _, _ => none

/-- `MarketDataProcessor.get_analysis_payload`: the serialised JSON text. -/
def getAnalysisPayload (sym now : Chars) (quote : Option QuoteDict) (intra lt : Option Df) :
    Option Chars :=
  (getPayloadObj sym now quote intra lt).map dumps

/-- `MarketDataProcessor.__init__` followed by `get_analysis_payload`:
the constructor runs the indicator processing over the tables it keeps. -/
def marketDataProcessorPayload (ta : TALib) (sym now : Chars) (quote : Option QuoteDict)
    (intra lt : Option Df) : Option Chars :=
  getAnalysisPayload sym now quote (intra.map (processIntradayIndicators ta))
    (lt.map (processLongtermIndicators ta))

/-- The keys of a JSON object (insertion order). -/
def Json.keys : Json → List Chars
  | .obj kvs => kvs.map Prod.fst
  | _ => []

/-! ## `_parse_json_response` (main.py)

String preprocessing (Python `str.strip`, `re.sub` with `^` anchors in
MULTILINE mode, backtick stripping), a model of `json.loads`, the greedy
brace extraction of `re.search(r'(\x7b.*\x7d)', text, re.DOTALL)`, and
the assembled parser. -/

/-- Python whitespace (`str.strip()` default / regex `\s`). -/
def isPyWs (c : Char) : Bool :=
  c == ' ' || c == '\t' || c == '\n' || c == '\r' || c == '\x0b' || c == '\x0c'

/-- JSON whitespace accepted by `json.loads`. -/
def isJWs (c : Char) : Bool :=
  c == ' ' || c == '\t' || c == '\n' || c == '\r'

/-- Remove the characters satisfying `p` from both ends
(Python `str.strip`). -/
def pyStripP (p : Char → Bool) (s : Chars) : Chars :=
  ((s.dropWhile p).reverse.dropWhile p).reverse

/-- `text.strip()`. -/
def pyStripWs (s : Chars) : Chars := pyStripP isPyWs s

/-- `text.strip(chr(96))`: strip backticks from both ends. -/
def pyStripBackticks (s : Chars) : Chars := pyStripP (fun c => c.toNat == 96) s

/-- Prefix test on character lists. -/
def charsStartWith : Chars → Chars → Bool
  | [], _ => true
  | _ :: _, [] => false
  | m :: ms, c :: cs => m == c && charsStartWith ms cs

/-- Worker for `re.sub(r'^MARKER\s*', '', text, flags=re.MULTILINE)`:
scan left to right; at each line start, a `MARKER` occurrence together
with the following maximal whitespace run is deleted.  A position is a
line start if it is the start of the text or the previously consumed
character of the original text is a newline.  `fuel` bounds the
recursion; it is initialised to the text length, which suffices because
every step consumes at least one character. -/
def pySubGo (marker : Chars) : ℕ → Bool → Chars → Chars
  | _, _, [] => []
  | 0, _, s => s
  | fuel + 1, atStart, c :: rest =>
    if atStart && charsStartWith marker (c :: rest) then
      let after := (c :: rest).drop marker.length
      let ws := after.takeWhile isPyWs
      let rest2 := after.dropWhile isPyWs
      pySubGo marker fuel (ws.getLast? == some '\n') rest2
    else c :: pySubGo marker fuel (c == '\n') rest

/-- `re.sub(r'^MARKER\s*', '', text, flags=re.MULTILINE)` for a
non-empty literal marker. -/
def pySubLineStart (marker : Chars) (s : Chars) : Chars :=
  pySubGo marker s.length true s

/-- Index of the first occurrence of a character. -/
def idxOfChar (c0 : Char) : Chars → Option ℕ
  | [] => none
  | c :: rest => if c = c0 then some 0 else (idxOfChar c0 rest).map (· + 1)

/-- Index of the last occurrence of a character. -/
def lastIdxOfChar (c0 : Char) (s : Chars) : Option ℕ :=
  (idxOfChar c0 s.reverse).map (fun i => s.length - 1 - i)

/-- `re.search(r'(\x7b.*\x7d)', text, re.DOTALL)`: with a greedy dot
that spans newlines, the match runs from the first opening brace to the
last closing brace, provided the latter lies strictly after the former;
otherwise there is no match. -/
def braceExtract (cs : Chars) : Option Chars :=
  match idxOfChar '\x7b' cs, lastIdxOfChar '\x7d' cs with
  | some i, some j => if i < j then some ((cs.drop i).take (j - i + 1)) else none
  | _, _ => none

/-- The preprocessing pipeline of `_parse_json_response`: strip
whitespace, delete line-leading ```` ```json ```` and ```` ``` ````
fences, strip backticks. -/
def preprocessText (raw : Chars) : Chars :=
  pyStripBackticks (pySubLineStart "```".data (pySubLineStart "```json".data (pyStripWs raw)))

/-! ### `json.loads` -/

/-- Value of a hexadecimal digit. -/
def hexVal (c : Char) : Option ℕ :=
  if c.isDigit then some (c.toNat - 48)
  else if 'a' ≤ c ∧ c ≤ 'f' then some (c.toNat - 87)
  else if 'A' ≤ c ∧ c ≤ 'F' then some (c.toNat - 55)
  else none

/-- The unescaped form of a single-character JSON escape. -/
def escMap (c : Char) : Option Char :=
  if c = '"' then some '"'
  else if c = '\\' then some '\\'
  else if c = '/' then some '/'
  else if c = 'b' then some '\x08'
  else if c = 'f' then some '\x0c'
  else if c = 'n' then some '\n'
  else if c = 'r' then some '\r'
  else if c = 't' then some '\t'
  else none

/-- Parse the body of a JSON string (the opening quote already
consumed); returns the decoded characters and the remaining input. -/
def parseStrBody : ℕ → Chars → Except Chars (Chars × Chars)
  | 0, _ => .error "fuel".data
  | _ + 1, [] => .error "Unterminated string".data
  | fuel + 1, c :: rest =>
    if c = '"' then .ok ([], rest)
    else if c = '\\' then
      match rest with
      | [] => .error "Unterminated string".data
      | 'u' :: h1 :: h2 :: h3 :: h4 :: rest2 =>
        match hexVal h1, hexVal h2, hexVal h3, hexVal h4 with
        | some a, some b, some c1, some d =>
          (parseStrBody fuel rest2).map
            (fun p => (Char.ofNat (((a * 16 + b) * 16 + c1) * 16 + d) :: p.1, p.2))
        | _, _, _, _ => .error "Invalid unicode escape".data
      | e :: rest2 =>
        match escMap e with
        | some c1 => (parseStrBody fuel rest2).map (fun p => (c1 :: p.1, p.2))
        | none => .error "Invalid escape".data
    else (parseStrBody fuel rest).map (fun p => (c :: p.1, p.2))

/-- Natural number denoted by a run of decimal digits. -/
def digitsToNat (ds : Chars) : ℕ := ds.foldl (fun a c => a * 10 + (c.toNat - 48)) 0

/-- Parse a JSON exponent part (after the `e`/`E`). -/
def parseExpPart (cs : Chars) : Except Chars (ℤ × Chars) :=
  let p := match cs with
    | '+' :: r => ((1 : ℤ), r)
    | '-' :: r => ((-1 : ℤ), r)
    | _ => ((1 : ℤ), cs)
  let ds := p.2.takeWhile Char.isDigit
  if ds = [] then .error "Expecting digits in exponent".data
  else .ok (p.1 * (digitsToNat ds : ℤ), p.2.drop ds.length)

/-- Parse a JSON number.  A number without fraction and exponent is a
Python `int`; otherwise it is a `float`. -/
def parseNumber (cs : Chars) : Except Chars (Json × Chars) :=
  let sp : Bool × Chars := match cs with
    | '-' :: r => (true, r)
    | _ => (false, cs)
  let ds := sp.2.takeWhile Char.isDigit
  if ds = [] then .error "Expecting value".data
  else
    let rest1 := sp.2.drop ds.length
    let sgn : ℚ := if sp.1 then -1 else 1
    let ip : ℚ := (digitsToNat ds : ℚ)
    match rest1 with
    | '.' :: r =>
      let fd := r.takeWhile Char.isDigit
      if fd = [] then .error "Expecting digits after decimal point".data
      else
        let rest2 := r.drop fd.length
        let mant : ℚ := ip + (digitsToNat fd : ℚ) / ((10 : ℚ) ^ fd.length)
        match rest2 with
        | 'e' :: r2 =>
          (parseExpPart r2).map (fun p => (Json.num (sgn * mant * (10 : ℚ) ^ p.1), p.2))
        | 'E' :: r2 =>
          (parseExpPart r2).map (fun p => (Json.num (sgn * mant * (10 : ℚ) ^ p.1), p.2))
        | _ => .ok (Json.num (sgn * mant), rest2)
    | 'e' :: r2 =>
      (parseExpPart r2).map (fun p => (Json.num (sgn * ip * (10 : ℚ) ^ p.1), p.2))
    | 'E' :: r2 =>
      (parseExpPart r2).map (fun p => (Json.num (sgn * ip * (10 : ℚ) ^ p.1), p.2))
    | _ =>
      .ok (Json.int (if sp.1 then -(digitsToNat ds : ℤ) else (digitsToNat ds : ℤ)), rest1)

mutual

/-- Parse one JSON value (leading whitespace allowed). -/
def parseValue : ℕ → Chars → Except Chars (Json × Chars)
  | 0, _ => .error "fuel".data
  | fuel + 1, cs0 =>
    let cs := cs0.dropWhile isJWs
    match cs with
    | [] => .error "Expecting value".data
    | '"' :: rest => (parseStrBody (rest.length + 1) rest).map (fun p => (Json.str p.1, p.2))
    | '\x7b' :: rest => parseObjStart fuel rest
    | '[' :: rest => parseArrStart fuel rest
    | 't' :: 'r' :: 'u' :: 'e' :: rest => .ok (Json.bool true, rest)
    | 'f' :: 'a' :: 'l' :: 's' :: 'e' :: rest => .ok (Json.bool false, rest)
    | 'n' :: 'u' :: 'l' :: 'l' :: rest => .ok (Json.null, rest)
    | c :: _ => if c = '-' ∨ c.isDigit then parseNumber cs else .error "Expecting value".data

/-- Parse an array after the opening bracket. -/
def parseArrStart : ℕ → Chars → Except Chars (Json × Chars)
  | 0, _ => .error "fuel".data
  | fuel + 1, cs =>
    let cs2 := cs.dropWhile isJWs
    match cs2 with
    | ']' :: rest => .ok (Json.arr [], rest)
    | _ => (parseArrLoop fuel cs2).map (fun p => (Json.arr p.1, p.2))

/-- Parse the items of a non-empty array. -/
def parseArrLoop : ℕ → Chars → Except Chars (List Json × Chars)
  | 0, _ => .error "fuel".data
  | fuel + 1, cs =>
    match parseValue fuel cs with
    | .error e => .error e
    | .ok (v, r) =>
      match r.dropWhile isJWs with
      | ',' :: r2 => (parseArrLoop fuel r2).map (fun p => (v :: p.1, p.2))
      | ']' :: r2 => .ok ([v], r2)
      | _ => .error "Expecting comma delimiter".data

/-- Parse an object after the opening brace. -/
def parseObjStart : ℕ → Chars → Except Chars (Json × Chars)
  | 0, _ => .error "fuel".data
  | fuel + 1, cs =>
    let cs2 := cs.dropWhile isJWs
    match cs2 with
    | '\x7d' :: rest => .ok (Json.obj [], rest)
    | _ => (parseObjLoop fuel cs2).map (fun p => (Json.obj p.1, p.2))

/-- Parse the members of a non-empty object. -/
def parseObjLoop : ℕ → Chars → Except Chars (List (Chars × Json) × Chars)
  | 0, _ => .error "fuel".data
  | fuel + 1, cs =>
    match cs.dropWhile isJWs with
    | '"' :: rest =>
      match parseStrBody (rest.length + 1) rest with
      | .error e => .error e
      | .ok (k, r) =>
        match r.dropWhile isJWs with
        | ':' :: r2 =>
          match parseValue fuel r2 with
          | .error e => .error e
          | .ok (v, r3) =>
            match r3.dropWhile isJWs with
            | ',' :: r4 => (parseObjLoop fuel r4).map (fun p => ((k, v) :: p.1, p.2))
            | '\x7d' :: r4 => .ok ([(k, v)], r4)
            | _ => .error "Expecting comma delimiter".data
        | _ => .error "Expecting colon delimiter".data
    | _ => .error "Expecting property name".data

end

/-- `json.loads`: parse one JSON value and require only whitespace to
follow. -/
def jsonLoads (cs : Chars) : Except Chars Json :=
  match parseValue (cs.length + 8) cs with
  | .ok (v, rest) => if rest.dropWhile isJWs = [] then .ok v else .error "Extra data".data
  | .error e => .error e

/-- Whether a parse attempt succeeded. -/
def exceptIsOk : Except Chars Json → Bool
  | .ok _ => true
  | .error _ => false

/-- `raw_text[:100].replace(chr(10), ' ')`: the diagnostic snippet of the
fallback decision. -/
def pySnippet (raw : Chars) : Chars :=
  (raw.take 100).map (fun c => if c == '\n' then ' ' else c)

/-- The synthetic fallback decision built in the `except` branch of
`_parse_json_response`. -/
def parseErrObj (raw msg : Chars) : Json :=
  Json.obj
    [("action".data, Json.str "ERROR".data),
     ("confidence".data, Json.int 0),
     ("reason".data, Json.str ("解析异常: ".data ++ msg)),
     ("raw_snippet".data, Json.str (pySnippet raw))]

/-- `_parse_json_response`: preprocess, try a direct parse, then the
greedy brace extraction, and fall back to the synthetic ERROR decision,
whose reason carries the message of the exception that was caught. -/
def parseJsonResponse (raw : Chars) : Json :=
  let text := preprocessText raw
  match jsonLoads text with
  | .ok v => v
  | .error _ =>
    match braceExtract text with
    | some js =>
      match jsonLoads js with
      | .ok v => v
      | .error e => parseErrObj raw e
    | none => parseErrObj raw "未找到有效的 JSON 对象".data

/-! ## Decision-field defaulting in `run_analysis` -/

/-- The decision fields as `run_analysis` reads them from a successfully
parsed object: `parsed_res.get('action', 'WAIT')`,
`parsed_res.get('confidence', 0)`, `parsed_res.get('target_cash', 0.0)`,
and the reason printed in the report,
`parsed_res.get('reason', 'N/A')`. -/
structure HandledDecision where
  action : Json
  confidence : Json
  target_cash : Json
  reportReason : Json

/-- The defaulting applied by `run_analysis` to a parsed decision
object. -/
def decisionHandling (kvs : List (Chars × Json)) : HandledDecision :=
  { action := dictGetD kvs "action".data (Json.str "WAIT".data)
    confidence := dictGetD kvs "confidence".data (Json.int 0)
    target_cash := dictGetD kvs "target_cash".data (Json.num 0)
    reportReason := dictGetD kvs "reason".data (Json.str "N/A".data) }

/-! ## `execute_order` (main.py)

The order sizer made pure: the account/position/price reads and the
brokerage call are inputs.  Each constructor of `ExecResult` corresponds
to one return site of the source, carrying the values interpolated into
its message. -/

/-- Outcome of `execute_order`. -/
inductive ExecResult where
  /-- Trading switch off: the simulated-trade message. -/
  | simulated (actionStr : Chars) (targetCash : ℚ)
  /-- Price missing or non-positive: cancelled. -/
  | priceFailed
  /-- BUY with bounded spend below the share price: no order, reported
  reason with the interpolated amounts. -/
  | insufficientFunds (targetCash price availCash : ℚ)
  /-- BUY with a computed quantity of zero: no order. -/
  | zeroQty
  /-- SELL without a held position: no order. -/
  | noPosition
  /-- Action other than BUY/SELL. -/
  | unknownAction
  /-- An order of `qty` shares was submitted; `placeRes` is the outcome
  of the brokerage call (exceptions are caught and reported as the
  demo-mode message). -/
  | orderResult (actionStr : Chars) (qty : ℤ) (placeRes : Except Chars ℕ)
deriving Repr

/-- `execute_order(symbol, action_str, confidence, target_cash)`:
`enableTrading` is `config.ENABLE_TRADING`, `currPos` the result of
`get_position`, `price` the snapshot mid-price (`0` when the snapshot is
empty), `availCash` the result of `get_account_status` (the sentinel `-1`
meaning unavailable), `placeRes` the brokerage response. -/
def executeOrder (enableTrading : Bool) (currPos : ℤ) (price availCash targetCash : ℚ)
    (actionStr : Chars) (placeRes : Except Chars ℕ) : ExecResult :=
  if ¬enableTrading then .simulated actionStr targetCash
  else if price ≤ 0 then .priceFailed
  else if actionStr = "BUY".data then
    let avail := if availCash = -1 then 0 else availCash
    let safeCash := min targetCash avail
    if safeCash < price then .insufficientFunds targetCash price avail
    else
      let quantity := pyTrunc (safeCash / price)
      if quantity = 0 then .zeroQty
      else .orderResult actionStr quantity placeRes
  else if actionStr = "SELL".data then
    if currPos ≤ 0 then .noPosition
    else if targetCash ≤ 0 ∨ targetCash ≥ (currPos : ℚ) * price then
      .orderResult actionStr currPos placeRes
    else
      let q0 := pyTrunc (targetCash / price)
      let quantity := if q0 > currPos then currPos else q0
      .orderResult actionStr quantity placeRes
  else .unknownAction

/-! ## `MarketDataManager` (main.py)

The cache is an association list keyed by (symbol, data kind); insertion
prepends, lookup takes the first match, so an update shadows the previous
entry, exactly like the dict overwrite of `_update_cache`.  Wall-clock
time is an explicit parameter (`now`); the network is an explicit
environment of fetch results.  Read operations additionally return the
number of `batch_fetch_all` invocations they performed. -/

/-- A stock brief returned by `get_stock_briefs`.  The `getattr`
defaults of the source (`0` for the prices, `None` for `open_int`) are
folded into the fields. -/
structure Brief where
  symbol : Option String
  identifier : Option String
  bid_price : ℚ
  ask_price : ℚ
  latest_price : ℚ
  open_int : Option ℚ
deriving DecidableEq, Repr

/-- A cached payload: a quote brief or a bar table. -/
inductive CVal where
  | brief (b : Brief)
  | bars (d : Df)
deriving DecidableEq, Repr

/-- A cache slot: `{'data': ..., 'ts': ...}`.  Timestamps are whole
seconds (`time.time()` idealised to an integer clock). -/
structure CacheEntry where
  data : CVal
  ts : ℤ
deriving DecidableEq, Repr

/-- The two-level dict `self._cache`, flattened to (symbol, kind) keys. -/
abbrev Cache := List ((String × String) × CacheEntry)

/-- Raw lookup of a cache slot. -/
def cacheLookup : Cache → String → String → Option CacheEntry
  | [], _, _ => none
  | (k, e) :: rest, s, dt => if k = (s, dt) then some e else cacheLookup rest s dt

/-- `_get_from_cache`: the slot's data if present and younger than the
ttl, else `None`. -/
def getFromCache (c : Cache) (sym dataType : String) (now ttl : ℤ) : Option CVal :=
  match cacheLookup c sym dataType with
  | some e => if now - e.ts < ttl then some e.data else none
  | none => none

/-- `_update_cache`: store the data stamped with the fetch time. -/
def updateCache (c : Cache) (sym dataType : String) (d : CVal) (now : ℤ) : Cache :=
  ((sym, dataType), ⟨d, now⟩) :: c

/-- The network as seen by `batch_fetch_all`: per request list, the
quote-brief call and, per period, the grouped bar call.  `.error` models
a raised exception (caught and logged by the source); the bar result
`none` models `get_bars` returning `None` or an empty frame. -/
structure FetchEnv where
  briefs : List String → Except Unit (List Brief)
  bars : List String → String → Except Unit (Option (List (String × Df)))

/-- `getattr(item, 'symbol', None) or getattr(item, 'identifier', None)`
(an empty-string symbol is falsy). -/
def briefSym (b : Brief) : Option String :=
  match b.symbol with
  | some s => if s = "" then b.identifier else some s
  | none => b.identifier

/-- `s.upper().strip()`. -/
def normSym (s : String) : String := s.toUpper.trim

/-- Store a list of fetched briefs, each under its own symbol. -/
def storeBriefs (items : List Brief) (now : ℤ) (c : Cache) : Cache :=
  items.foldl (fun acc it =>
    match briefSym it with
    | some s => updateCache acc s "quote" (CVal.brief it) now
    | none => acc) c

/-- Store the grouped bar frames of one period, each under its group
symbol. -/
def storeBars (groups : List (String × Df)) (period : String) (now : ℤ) (c : Cache) : Cache :=
  groups.foldl (fun a p => updateCache a p.1 period (CVal.bars p.2) now) c

/-- One iteration of the per-period bar fetch of `batch_fetch_all`: a
raised or empty bar fetch is isolated and leaves the cache unchanged. -/
def fetchPeriodStep (env : FetchEnv) (uniq : List String) (now : ℤ) (c : Cache)
    (period : String) : Cache :=
  match env.bars uniq period with
  | .ok (some groups) => storeBars groups period now c
  | .ok none => c
  | .error _ => c

/-- `batch_fetch_all(symbol_list)`: no-op on an empty list; otherwise
dedupe the normalised symbols, fetch the briefs (failure isolated), then
fetch the 5-minute and 240-minute bars (each failure isolated), storing
every returned item under its own symbol with the fetch time `now`.
The per-group `sort_values`/`rename` normalisation happens inside the
opaque frames and is not modelled. -/
def batchFetchAll (env : FetchEnv) (c : Cache) (symbolList : List String) (now : ℤ) : Cache :=
  if symbolList.isEmpty then c
  else
    let uniq := (symbolList.map normSym).eraseDups
    let c1 :=
      match env.briefs uniq with
      | .ok items => storeBriefs items now c
      | .error _ => c
    fetchPeriodStep env uniq now (fetchPeriodStep env uniq now c1 "5min") "240min"

/-- Every slot of `c2` is either the corresponding slot of `c0` or an
entry stamped `now` (the shape of a cache after one refresh at `now`). -/
def FreshOrOld (c0 c2 : Cache) (now : ℤ) : Prop :=
  ∀ sym dty, cacheLookup c2 sym dty = cacheLookup c0 sym dty ∨
    ∃ d, cacheLookup c2 sym dty = some ⟨d, now⟩

/-- The dict built by `get_realtime_snapshot` on a cache hit. -/
structure Snapshot where
  mid_price : ℚ
  open_interest : Option ℚ
deriving DecidableEq, Repr

/-- The mid-price computation of `get_realtime_snapshot`: the average of
bid and ask when both are positive, else the latest price.  On a cached
object without the quote attributes the `getattr` defaults yield `0`. -/
def buildSnapshot : CVal → Snapshot
  | .brief b =>
    { mid_price := if 0 < b.bid_price ∧ 0 < b.ask_price then (b.bid_price + b.ask_price) / 2
                   else b.latest_price
      open_interest := b.open_int }
  | .bars _ => { mid_price := 0, open_interest := none }

/-- `get_realtime_snapshot(symbol)`: cached read, single fallback
refresh on a miss, one retried read; `none` models the empty dict.  The
third component counts the `batch_fetch_all` calls. -/
def getRealtimeSnapshot (env : FetchEnv) (c : Cache) (symbol : String) (now ttl : ℤ) :
    Option Snapshot × Cache × ℕ :=
  match getFromCache c symbol "quote" now ttl with
  | some v => (some (buildSnapshot v), c, 0)
  | none =>
    let c2 := batchFetchAll env c [symbol] now
    match getFromCache c2 symbol "quote" now ttl with
    | some v => (some (buildSnapshot v), c2, 1)
    | none => (none, c2, 1)

/-- `get_bars(symbol, period)`: cached read, single fallback refresh on
a miss, one retried read; `none` models the `None` result.  The third
component counts the `batch_fetch_all` calls. -/
def getBars (env : FetchEnv) (c : Cache) (symbol period : String) (now ttl : ℤ) :
    Option CVal × Cache × ℕ :=
  match getFromCache c symbol period now ttl with
  | some v => (some v, c, 0)
  | none =>
    let c2 := batchFetchAll env c [symbol] now
    (getFromCache c2 symbol period now ttl, c2, 1)

/-! ## Projections and concrete inputs used by the theorems below -/

/-- Read a two-level path out of an optional payload object. -/
def payloadGet2 (o : Option Json) (k1 k2 : Chars) : Option Json :=
  o.bind (fun j => (Json.objGet j k1).bind (fun v => Json.objGet v k2))

/-- Read a three-level path out of an optional payload object. -/
def payloadGet3 (o : Option Json) (k1 k2 k3 : Chars) : Option Json :=
  (payloadGet2 o k1 k2).bind (fun v => Json.objGet v k3)

/-- A first wall-clock reading. -/
def timeA : Chars := "2024-01-01 00:00:00".data

/-- A second wall-clock reading, one second later. -/
def timeB : Chars := "2024-01-01 00:00:01".data

/-- A synthetic bar whose prices all equal `q`. -/
def mkBarQ (q : ℚ) : Bar :=
  { op := .val q, hi := .val q, lo := .val q, close := .val q, volume := .val 100 }

/-- A 25-row intraday series whose last two closes are 10.00 (confirmed)
and 10.50 (unconfirmed), with warm-up-length indicator columns present. -/
def df25 : Df :=
  { core := ((List.range 23).map (fun i => mkBarQ (Rat.divInt (Int.ofNat (i + 1)) 1))) ++
      [mkBarQ 10, mkBarQ (Rat.divInt 21 2)]
    derived := [("MACD_Hist".data, List.replicate 25 PyFloat.nan),
                ("RSI7".data, List.replicate 25 PyFloat.nan)] }

/-- A trivial instantiation of the indicator library. -/
def ta0 : TALib :=
  { ema := fun xs _ => xs
    rsi := fun xs _ => xs
    atr := fun _ _ c _ => c
    macd := fun _ => none }

/-- An empty bar table. -/
def df0 : Df := { core := [], derived := [] }

/-- The serialised payload for symbol `X`, clock `timeA`, no quote
snapshot and no bar tables. -/
def payloadTextA : String :=
  "\x7b\n  \"symbol\": \"X\",\n  \"timestamp\": \"2024-01-01 00:00:00\",\n  \"note\": \"Analysis based on COMPLETED candles only (Lagged by 1 period).\",\n  \"market_state\": \x7b\n    \"price_current\": null,\n    \"open_interest\": \"N/A\",\n    \"price_sequence_60\": []\n  \x7d,\n  \"indicators\": \x7b\n    \"intraday_5m\": \"Data Insufficient\",\n    \"longterm_4h\": \"Data Insufficient\"\n  \x7d\n\x7d"

/-- A network environment that returns no briefs and one 5-minute bar
group for symbol `AAPL`. -/
def envOk : FetchEnv :=
  { briefs := fun _ => .ok []
    bars := fun _ p => if p = "5min" then .ok (some [("AAPL", df0)]) else .ok none }

/-- A network environment in which every fetch raises. -/
def envFail : FetchEnv :=
  { briefs := fun _ => .error ()
    bars := fun _ _ => .error () }

/-! ## Helper lemmas -/

/-- Python `int()` truncation agrees with the floor on non-negative
rationals. -/
theorem pyTrunc_eq_floor (q : ℚ) (h : 0 ≤ q) : pyTrunc q = ⌊q⌋ := by
  rw [Rat.floor_def]
  exact Int.tdiv_eq_ediv (Rat.num_nonneg.mpr h) (Int.ofNat_nonneg _)

/-- `round4` produces an integer multiple of `1 / 10000`. -/
theorem round4_eq_div (q : ℚ) : round4 q = (rnd4Int q : ℚ) / 10000 := by
  rw [round4, Rat.divInt_eq_div]
  norm_num

/-- Folding the dict-get with a default agrees with folding the optional
dict-get. -/
theorem foldl_dict_getD (k : Chars) (d : Json) :
    ∀ (kvs : List (Chars × Json)) (acc : Option Json),
      kvs.foldl (fun a p => if p.1 = k then p.2 else a) (acc.getD d) =
        (kvs.foldl (fun a p => if p.1 = k then some p.2 else a) acc).getD d := by
  intro kvs
  induction kvs with
  | nil => intro acc; rfl
  | cons p rest ih =>
    intro acc
    by_cases h : p.1 = k
    · simpa [List.foldl_cons, h] using ih (some p.2)
    · simpa [List.foldl_cons, h] using ih acc

/-- `d.get(k, default)` in terms of `d.get(k)`. -/
theorem dictGetD_eq (kvs : List (Chars × Json)) (k : Chars) (d : Json) :
    dictGetD kvs k d = (dictGet? kvs k).getD d := by
  have := foldl_dict_getD k d kvs none
  simpa [dictGetD, dictGet?] using this

/-! ## C8 — indicator warm-up guard -/

/-- C8: for every bar series strictly shorter than its warm-up length
(20 rows intraday, 50 rows long-term) and every behaviour of the
indicator library, the indicator computation leaves the table unchanged —
no derived column is added — and returns (it is total). -/
theorem indicator_warmup_skip (ta : TALib) (df : Df) :
    (df.len < 20 → processIntradayIndicators ta df = df) ∧
    (df.len < 50 → processLongtermIndicators ta df = df) := by
  constructor <;> intro h
  · simp [processIntradayIndicators, h]
  · simp [processLongtermIndicators, h]

/-- Witness for C8 at a concrete table and library instantiation. -/
theorem indicator_warmup_skip_witness :
    processIntradayIndicators ta0 df0 = df0 ∧ processLongtermIndicators ta0 df0 = df0 := by
  exact ⟨(indicator_warmup_skip ta0 df0).1 (by decide), (indicator_warmup_skip ta0 df0).2 (by decide)⟩

/-! ## C9 — extraction normalisation -/

/-- C9 (counterexample): `_extract_seq` does not return "the last N
defined values": on the series `[1, NaN, 2]` with `N = 2` the code keeps
only the defined values among the last two entries, `[2]`, while the
last two defined values of the series are `[1, 2]`. -/
theorem extract_seq_lastN_counterexample :
    extractSeq (some [PyFloat.val 1, PyFloat.nan, PyFloat.val 2]) 2 = [2] ∧
    extractSeqSpecLastDefined [PyFloat.val 1, PyFloat.nan, PyFloat.val 2] 2 = [1, 2] ∧
    ([2] : List ℚ) ≠ [1, 2] :=
  ⟨by decide, by decide, by decide⟩

/-- C9 (amended): `_extract_val` rounds any finite value to 4 decimal
places and returns the configured default for `None`/NaN/Infinity/empty
input, never an exception; every value `_extract_seq` emits is a multiple
of `1/10000`; and `_extract_seq` returns, of the last `n` entries of the
series, the defined values rounded to 4 decimals — at most `n` of them —
and `[]` for absent input. -/
theorem extract_normalization :
    (∀ d, extractVal none d = d) ∧
    (∀ d, extractVal (some PyFloat.nan) d = d) ∧
    (∀ d, extractVal (some PyFloat.inf) d = d) ∧
    (∀ d, extractVal (some PyFloat.ninf) d = d) ∧
    (∀ q d, extractVal (some (PyFloat.val q)) d = some (round4 q)) ∧
    (∀ d, extractValSeries [] d = d) ∧
    (∀ v q, extractVal v none = some q → ∃ z : ℤ, q = (z : ℚ) / 10000) ∧
    (∀ s n x, x ∈ extractSeq (some s) n → ∃ z : ℤ, x = (z : ℚ) / 10000) ∧
    (∀ n, extractSeq none n = []) ∧
    (∀ s n, (extractSeq (some s) n).length ≤ n) ∧
    (∀ s n, extractSeq (some s) n = extractSeqSpecLastDefined (pyTail s n) n) := by
  refine ⟨fun d => rfl, fun d => rfl, fun d => rfl, fun d => rfl, fun q d => rfl, fun d => rfl,
    ?_, ?_, fun n => rfl, ?_, ?_⟩
  · intro v q h
    match v with
    | none => simp [extractVal] at h
    | some .nan => simp [extractVal] at h
    | some .inf => simp [extractVal] at h
    | some .ninf => simp [extractVal] at h
    | some (.val q0) =>
      simp only [extractVal, Option.some.injEq] at h
      exact ⟨rnd4Int q0, by rw [← h, round4_eq_div]⟩
  · intro s n x hx
    simp only [extractSeq, List.mem_map] at hx
    obtain ⟨y, _, hy⟩ := hx
    exact ⟨rnd4Int (pyFloatVal y), by rw [← hy, round4_eq_div]⟩
  · intro s n
    simp only [extractSeq, List.length_map]
    calc ((pyTail s n).filter isDefinedF).length ≤ (pyTail s n).length :=
          List.length_filter_le _ _
      _ ≤ n := by simp [pyTail]; omega
  · intro s n
    have hlen : (((pyTail s n).filter isDefinedF).map
        (fun x => round4 (pyFloatVal x))).length ≤ n := by
      simp only [List.length_map]
      calc ((pyTail s n).filter isDefinedF).length ≤ (pyTail s n).length :=
            List.length_filter_le _ _
        _ ≤ n := by simp [pyTail]; omega
    simp only [extractSeq, extractSeqSpecLastDefined]
    rw [show (((pyTail s n).filter isDefinedF).map
        (fun x => round4 (pyFloatVal x))).length - n = 0 by omega, List.drop_zero]

/-- Witness for C9: the rounding component applied at a concrete
sequence element. -/
theorem extract_normalization_witness :
    (2 : ℚ) ∈ extractSeq (some [PyFloat.val 1, PyFloat.nan, PyFloat.val 2]) 2 ∧
    ∃ z : ℤ, (2 : ℚ) = (z : ℚ) / 10000 := by
  have hmem : (2 : ℚ) ∈ extractSeq (some [PyFloat.val 1, PyFloat.nan, PyFloat.val 2]) 2 := by
    decide
  exact ⟨hmem, extract_normalization.2.2.2.2.2.2.2.1 _ 2 2 hmem⟩

/-! ## C10 — decision-field defaults -/

/-- C10 (counterexample): for a successfully parsed empty object the
reason used in the report defaults to `"N/A"`, not the empty string. -/
theorem decision_reason_default_counterexample :
    (decisionHandling []).reportReason = Json.str "N/A".data ∧
    Json.str "N/A".data ≠ Json.str "".data := by
  refine ⟨rfl, fun h => ?_⟩
  injection h with h2
  exact absurd h2 (by decide)

/-- C10 (amended): fields not present in the parsed object default to
action `"WAIT"`, confidence `0`, target_cash `0.0`, and the report reason
defaults to `"N/A"`. -/
theorem decision_field_defaults (kvs : List (Chars × Json)) :
    (dictGet? kvs "action".data = none →
      (decisionHandling kvs).action = Json.str "WAIT".data) ∧
    (dictGet? kvs "confidence".data = none →
      (decisionHandling kvs).confidence = Json.int 0) ∧
    (dictGet? kvs "target_cash".data = none →
      (decisionHandling kvs).target_cash = Json.num 0) ∧
    (dictGet? kvs "reason".data = none →
      (decisionHandling kvs).reportReason = Json.str "N/A".data) := by
  refine ⟨fun h => ?_, fun h => ?_, fun h => ?_, fun h => ?_⟩ <;>
    simp [decisionHandling, dictGetD_eq, h]

/-- Witness for C10 at the empty parsed object. -/
theorem decision_field_defaults_witness :
    (decisionHandling []).action = Json.str "WAIT".data ∧
    (decisionHandling []).confidence = Json.int 0 ∧
    (decisionHandling []).target_cash = Json.num 0 ∧
    (decisionHandling []).reportReason = Json.str "N/A".data := by
  obtain ⟨h1, h2, h3, h4⟩ := decision_field_defaults []
  exact ⟨h1 rfl, h2 rfl, h3 rfl, h4 rfl⟩

/-! ## C4 — BUY sizing -/

/-- C4: for a BUY executed with trading enabled at a price > 0, the
bounded spend is `min(target_cash, available cash)` with the sentinel
`-1` (unknown cash) treated as zero; when the bounded spend reaches the
price an order of `⌊spend / price⌋` shares is submitted, and when it is
below the price no order is placed and the insufficient-funds reason is
returned; for non-negative spend, the floor quantity is zero exactly when
the spend is below the price. -/
theorem buy_sizing_bounded (currPos : ℤ) (price availCash targetCash : ℚ)
    (placeRes : Except Chars ℕ) (hp : 0 < price) :
    (min targetCash (if availCash = -1 then 0 else availCash) < price →
      executeOrder true currPos price availCash targetCash "BUY".data placeRes =
        ExecResult.insufficientFunds targetCash price (if availCash = -1 then 0 else availCash)) ∧
    (price ≤ min targetCash (if availCash = -1 then 0 else availCash) →
      executeOrder true currPos price availCash targetCash "BUY".data placeRes =
        ExecResult.orderResult "BUY".data
          ⌊min targetCash (if availCash = -1 then 0 else availCash) / price⌋ placeRes) ∧
    (0 ≤ min targetCash (if availCash = -1 then 0 else availCash) →
      (⌊min targetCash (if availCash = -1 then 0 else availCash) / price⌋ = 0 ↔
        min targetCash (if availCash = -1 then 0 else availCash) < price)) := by
  set m := min targetCash (if availCash = -1 then 0 else availCash) with hm
  refine ⟨fun h => ?_, fun h => ?_, fun h => ?_⟩
  · simp only [executeOrder, not_true, if_false, if_neg (not_le.mpr hp), if_pos rfl, ← hm,
      if_pos h]
    simp
  · have h0 : (0 : ℚ) ≤ m := le_trans hp.le h
    have hq : pyTrunc (m / price) = ⌊m / price⌋ := pyTrunc_eq_floor _ (div_nonneg h0 hp.le)
    have hne : ⌊m / price⌋ ≠ 0 := by
      have : (1 : ℤ) ≤ ⌊m / price⌋ := by
        rw [Int.le_floor]
        push_cast
        rw [le_div_iff₀ hp]
        linarith
      omega
    simp only [executeOrder, not_true, if_false, if_neg (not_le.mpr hp), if_pos rfl, ← hm,
      if_neg (not_lt.mpr h), hq, if_neg hne]
    simp
  · rw [Int.floor_eq_zero_iff]
    constructor
    · rintro ⟨-, h2⟩
      rwa [div_lt_one hp] at h2
    · intro h2
      exact ⟨div_nonneg h hp.le, (div_lt_one hp).mpr h2⟩

/-- Witness for C4: `target_cash = 1000`, `price = 250`,
`available_cash = 1000` yields quantity exactly 4. -/
theorem buy_sizing_bounded_witness :
    executeOrder true 0 250 1000 1000 "BUY".data (Except.ok 1) =
      ExecResult.orderResult "BUY".data 4 (Except.ok 1) := by
  have h := (buy_sizing_bounded 0 250 1000 1000 (Except.ok 1) (by norm_num)).2.1 (by norm_num)
  rw [h]
  congr 1
  rw [show min (1000 : ℚ) (if (1000 : ℚ) = -1 then 0 else 1000) / 250 = ((4 : ℤ) : ℚ) by
    norm_num]
  exact Int.floor_intCast 4

/-! ## C5 — SELL sizing -/

/-- C5: for a SELL executed with trading enabled at a price > 0: with no
held position, no order is placed and the no-position outcome is
reported; with a position held, a requested `target_cash ≤ 0` or at least
the position value liquidates the whole position; otherwise the quantity
is `⌊target_cash / price⌋` capped at the held quantity. -/
theorem sell_sizing_liquidate_reduce (currPos : ℤ) (price availCash targetCash : ℚ)
    (placeRes : Except Chars ℕ) (hp : 0 < price) :
    (currPos ≤ 0 →
      executeOrder true currPos price availCash targetCash "SELL".data placeRes =
        ExecResult.noPosition) ∧
    (0 < currPos → targetCash ≤ 0 ∨ (currPos : ℚ) * price ≤ targetCash →
      executeOrder true currPos price availCash targetCash "SELL".data placeRes =
        ExecResult.orderResult "SELL".data currPos placeRes) ∧
    (0 < currPos → 0 < targetCash → targetCash < (currPos : ℚ) * price →
      executeOrder true currPos price availCash targetCash "SELL".data placeRes =
        ExecResult.orderResult "SELL".data (min ⌊targetCash / price⌋ currPos) placeRes) := by
  refine ⟨fun h => ?_, fun h hcase => ?_, fun h htc hlt => ?_⟩
  · simp only [executeOrder, not_true, if_false, if_neg (not_le.mpr hp),
      if_neg (show ¬ ("SELL".data = "BUY".data) by decide), if_pos rfl, if_pos h]
    simp
  · simp only [executeOrder, not_true, if_false, if_neg (not_le.mpr hp),
      if_neg (show ¬ ("SELL".data = "BUY".data) by decide), if_pos rfl, if_neg (not_le.mpr h)]
    have hcase2 : targetCash ≤ 0 ∨ targetCash ≥ (currPos : ℚ) * price := by
      rcases hcase with h1 | h1
      · exact Or.inl h1
      · exact Or.inr h1
    simp only [if_pos hcase2]
    simp
  · have hq : pyTrunc (targetCash / price) = ⌊targetCash / price⌋ :=
      pyTrunc_eq_floor _ (div_nonneg htc.le hp.le)
    have hncase : ¬ (targetCash ≤ 0 ∨ targetCash ≥ (currPos : ℚ) * price) := by
      push_neg
      exact ⟨htc, hlt⟩
    simp only [executeOrder, not_true, if_false, if_neg (not_le.mpr hp),
      if_neg (show ¬ ("SELL".data = "BUY".data) by decide), if_pos rfl, if_neg (not_le.mpr h),
      if_neg hncase, hq]
    have : (if ⌊targetCash / price⌋ > currPos then currPos else ⌊targetCash / price⌋) =
        min ⌊targetCash / price⌋ currPos := by
      rcases lt_or_le currPos ⌊targetCash / price⌋ with h2 | h2
      · rw [if_pos h2, min_eq_right h2.le]
      · rw [if_neg (not_lt.mpr h2), min_eq_left h2]
    rw [this]
    simp

/-- Witness for C5: `held = 100`, `target_cash = 0` liquidates the whole
position of 100 shares. -/
theorem sell_sizing_liquidate_reduce_witness :
    executeOrder true 100 10 0 0 "SELL".data (Except.ok 2) =
      ExecResult.orderResult "SELL".data 100 (Except.ok 2) := by
  exact (sell_sizing_liquidate_reduce 100 10 0 0 (Except.ok 2) (by norm_num)).2.1
    (by norm_num) (Or.inl le_rfl)

/-! ## C2 / C7 — the response parser -/

/-- Stripping both ends only removes characters. -/
theorem mem_pyStripP {p : Char → Bool} {s : Chars} {c : Char} (h : c ∈ pyStripP p s) : c ∈ s := by
  have h1 := (List.dropWhile_sublist p).subset (List.mem_reverse.mp h)
  exact (List.dropWhile_sublist p).subset (List.mem_reverse.mp h1)

/-- The fence-removing substitution only removes characters. -/
theorem mem_pySubGo (marker : Chars) :
    ∀ (fuel : ℕ) (b : Bool) (s : Chars) (c : Char), c ∈ pySubGo marker fuel b s → c ∈ s := by
  intro fuel
  induction fuel with
  | zero =>
    intro b s c h
    cases s with
    | nil => simp [pySubGo] at h
    | cons x xs => simpa [pySubGo] using h
  | succ n ih =>
    intro b s c h
    cases s with
    | nil => simp [pySubGo] at h
    | cons x xs =>
      by_cases hb : (b && charsStartWith marker (x :: xs)) = true
      · simp only [pySubGo, if_pos hb] at h
        have h2 := ih _ _ _ h
        have h3 := (List.dropWhile_sublist isPyWs).subset h2
        exact List.drop_subset _ _ h3
      · simp only [pySubGo, if_neg hb] at h
        rcases List.mem_cons.mp h with h | h
        · exact h ▸ List.mem_cons_self _ _
        · exact List.mem_cons_of_mem _ (ih _ _ _ h)

/-- The whole preprocessing pipeline only removes characters. -/
theorem preprocessText_subset (raw : Chars) {c : Char} (h : c ∈ preprocessText raw) : c ∈ raw := by
  have h1 := mem_pyStripP (p := fun c => c.toNat == 96) h
  have h2 := mem_pySubGo "```".data _ _ _ _ h1
  have h3 := mem_pySubGo "```json".data _ _ _ _ h2
  exact mem_pyStripP h3

/-- A character that does not occur has no first index. -/
theorem idxOfChar_eq_none {c0 : Char} : ∀ {s : Chars}, c0 ∉ s → idxOfChar c0 s = none := by
  intro s
  induction s with
  | nil => intro _; rfl
  | cons x xs ih =>
    intro h
    simp only [List.mem_cons, not_or] at h
    rw [idxOfChar, if_neg (fun he => h.1 he.symm), ih h.2]
    rfl

/-- Without an opening brace the greedy brace search fails. -/
theorem braceExtract_none {cs : Chars} (h : '\x7b' ∉ cs) : braceExtract cs = none := by
  unfold braceExtract
  rw [idxOfChar_eq_none h]

/-- C2 (counterexample): on the input `"42"` — a string with no braces
at all — `_parse_json_response` returns the bare integer `42`, which is
not a decision object, and in particular not the synthetic ERROR
decision. -/
theorem parse_response_nonobject_counterexample :
    parseJsonResponse "42".data = Json.int 42 ∧
    Json.isObj (Json.int 42) = false ∧
    '\x7b' ∉ "42".data :=
  ⟨rfl, rfl, by decide⟩

/-- C2 (amended): `_parse_json_response` is total and never raises; a
brace-free input admits no brace extraction; and whenever the direct
parse and every brace extraction fail, the result is the synthetic
decision with action `"ERROR"`, confidence `0`, a reason carrying the
caught exception message, and `raw_snippet` equal to the first 100
characters of the original text with newlines replaced by spaces — hence
of length at most 100 and non-empty for non-empty input. -/
theorem parse_response_error_fallback (raw : Chars) :
    ('\x7b' ∉ raw → braceExtract (preprocessText raw) = none) ∧
    (exceptIsOk (jsonLoads (preprocessText raw)) = false →
      (∀ s, braceExtract (preprocessText raw) = some s → exceptIsOk (jsonLoads s) = false) →
      ∃ m, parseJsonResponse raw = Json.obj
        [("action".data, Json.str "ERROR".data),
         ("confidence".data, Json.int 0),
         ("reason".data, Json.str ("解析异常: ".data ++ m)),
         ("raw_snippet".data, Json.str (pySnippet raw))]) ∧
    (pySnippet raw).length ≤ 100 ∧
    (raw ≠ [] → pySnippet raw ≠ []) := by
  refine ⟨?_, ?_, ?_, ?_⟩
  · intro h
    exact braceExtract_none (fun hc => h (preprocessText_subset raw hc))
  · intro h1 h2
    cases hL : jsonLoads (preprocessText raw) with
    | ok v => rw [hL] at h1; simp [exceptIsOk] at h1
    | error e =>
      cases hB : braceExtract (preprocessText raw) with
      | none =>
        refine ⟨"未找到有效的 JSON 对象".data, ?_⟩
        simp only [parseJsonResponse, hL, hB]
        rfl
      | some s =>
        have h3 := h2 s hB
        cases hLs : jsonLoads s with
        | ok v => rw [hLs] at h3; simp [exceptIsOk] at h3
        | error e2 =>
          refine ⟨e2, ?_⟩
          simp only [parseJsonResponse, hL, hB, hLs]
          rfl
  · simp only [pySnippet, List.length_map, List.length_take]
    omega
  · intro h hc
    simp only [pySnippet] at hc
    rw [List.map_eq_nil_iff, List.take_eq_nil_iff] at hc
    rcases hc with hc | hc
    · exact absurd hc (by omega)
    · exact h hc

/-- Witness for C2 at an unparseable brace-free input. -/
theorem parse_response_error_fallback_witness :
    ∃ m, parseJsonResponse "no json here at all".data = Json.obj
      [("action".data, Json.str "ERROR".data),
       ("confidence".data, Json.int 0),
       ("reason".data, Json.str ("解析异常: ".data ++ m)),
       ("raw_snippet".data, Json.str (pySnippet "no json here at all".data))] := by
  apply (parse_response_error_fallback "no json here at all".data).2.1
  · rfl
  · intro s hs
    rw [show braceExtract (preprocessText "no json here at all".data) = none from rfl] at hs
    cases hs

/-- C7: the extraction strategies apply in a fixed order with the first
match winning — a successful direct parse of the stripped text is
returned as is; otherwise the greedy brace-delimited substring is parsed;
and the code-fenced example text yields action BUY with confidence 80. -/
theorem parser_strategy_order :
    (∀ raw v, jsonLoads (preprocessText raw) = Except.ok v → parseJsonResponse raw = v) ∧
    (∀ raw s v, exceptIsOk (jsonLoads (preprocessText raw)) = false →
      braceExtract (preprocessText raw) = some s → jsonLoads s = Except.ok v →
      parseJsonResponse raw = v) ∧
    parseJsonResponse "blah blah ```json\n\x7b\"action\":\"BUY\",\"confidence\":80\x7d\n```".data =
      Json.obj [("action".data, Json.str "BUY".data), ("confidence".data, Json.int 80)] := by
  refine ⟨?_, ?_, rfl⟩
  · intro raw v h
    simp only [parseJsonResponse, h]
  · intro raw s v h1 h2 h3
    cases hL : jsonLoads (preprocessText raw) with
    | ok w => rw [hL] at h1; simp [exceptIsOk] at h1
    | error e =>
      simp only [parseJsonResponse, hL, h2, h3]

/-- Witness for C7: the second strategy applied to a concrete input with
surrounding junk. -/
theorem parser_strategy_order_witness :
    parseJsonResponse "xx \x7b\"a\":1\x7d yy".data = Json.obj [("a".data, Json.int 1)] := by
  exact parser_strategy_order.2.1 "xx \x7b\"a\":1\x7d yy".data "\x7b\"a\":1\x7d".data
    (Json.obj [("a".data, Json.int 1)]) rfl rfl rfl

/-! ## C3 — payload determinism -/

/-- C3 (counterexample): the serialised payload embeds the wall-clock
reading, so two invocations on identical bar-table and quote inputs made
at different clock readings produce different JSON text — the output is
not a function of the (bars, quote) inputs alone. -/
theorem payload_time_dependence_counterexample :
    timeA ≠ timeB ∧
    getAnalysisPayload "X".data timeA none none none ≠
      getAnalysisPayload "X".data timeB none none none := by
  constructor <;> decide

set_option maxRecDepth 10000 in
/-- C3 (amended): for identical inputs and an identical clock reading
the serialisation is byte-for-byte reproducible with a fixed key order —
every produced payload object carries exactly the keys `symbol`,
`timestamp`, `note`, `market_state`, `indicators` in that order — and the
concrete empty-input payload serialises to an explicit constant with
two-space indentation. -/
theorem payload_key_order_deterministic :
    (∀ sym now quote intra lt j, getPayloadObj sym now quote intra lt = some j →
      Json.keys j = ["symbol".data, "timestamp".data, "note".data, "market_state".data,
        "indicators".data]) ∧
    getAnalysisPayload "X".data timeA none none none = some payloadTextA.data := by
  constructor
  · intro sym now quote intra lt j h
    cases hms : marketStatePart quote intra with
    | none => simp [getPayloadObj, hms] at h
    | some ms =>
      cases hi5 : ind5mPart intra with
      | none => simp [getPayloadObj, hms, hi5] at h
      | some i5 =>
        cases hi4 : ind4hPart lt with
        | none => simp [getPayloadObj, hms, hi5, hi4] at h
        | some i4 =>
          simp only [getPayloadObj, hms, hi5, hi4, Option.some.injEq] at h
          rw [← h]
          rfl
  · decide

/-- Witness for C3: the key order of a concretely produced payload. -/
theorem payload_key_order_deterministic_witness :
    ∃ j, getPayloadObj "X".data timeA none none none = some j ∧
      Json.keys j = ["symbol".data, "timestamp".data, "note".data, "market_state".data,
        "indicators".data] := by
  refine ⟨_, rfl, ?_⟩
  exact payload_key_order_deterministic.1 "X".data timeA none none none _ rfl

/-! ## C1 — look-ahead guard -/

/-- `iloc[-k]` is the row at index `len - k` when the table is long
enough. -/
theorem ilocNeg_eq (df : Df) (k : ℕ) (h : k ≤ df.len) :
    ilocNeg df k = df.core.get? (df.len - k) := by
  simp [ilocNeg, h]

/-- The derived-column read of `iloc[-k]` is the column value at index
`len - k`. -/
theorem rowDerivedNeg_eq (df : Df) (name : Chars) (k : ℕ) (h : k ≤ df.len) :
    rowDerivedNeg df name k =
      (colGet df.derived name).bind (fun col => col.get? (df.len - k)) := by
  simp [rowDerivedNeg, h]

/-- Column lookup commutes with dropping the final row. -/
theorem colGet_dropLast (L : List (Chars × List PyFloat)) (name : Chars) :
    colGet (L.map (fun p => (p.1, p.2.dropLast))) name =
      (colGet L name).map List.dropLast := by
  induction L with
  | nil => rfl
  | cons p rest ih =>
    by_cases h : p.1 = name
    · simp [colGet, h]
    · simp [colGet, h, ih]

/-- An in-range row index yields a row. -/
theorem core_get?_some (df : Df) (i : ℕ) (h : i < df.len) : ∃ b, df.core.get? i = some b := by
  cases hb : df.core.get? i with
  | none =>
    rw [List.get?_eq_none] at hb
    exact absurd hb (by simp only [Df.len] at h; omega)
  | some b => exact ⟨b, rfl⟩

/-- C1: for an intraday series of at least 3 rows whose payload builds
successfully: when no valid quote mid-price is available, `price_current`
is the extracted close of the second-to-last row (index `len - 2`), and
when a valid mid-price exists `price_current` is that mid-price; the
price sequence is built from the series with its final row dropped; and
with more than 20 rows the "current" indicator values (`close`,
`macd_hist`, `rsi7`) come from index `len - 2`, the "previous" value
(`macd_hist_prev`) from index `len - 3`, and both oscillator sequences
are built from the indicator columns with their final entry dropped — so
the unconfirmed final row contributes to no sequence and to no current or
previous value. -/
theorem lookahead_guard_payload (df : Df) (lt : Option Df) (quote : Option QuoteDict)
    (sym now : Chars) (h3 : 3 ≤ df.len)
    (hok : (getPayloadObj sym now quote (some df) lt).isSome = true) :
    (extractVal (quoteMid quote) none = none →
      payloadGet2 (getPayloadObj sym now quote (some df) lt) "market_state".data
          "price_current".data =
        some (jsonOfOpt (extractVal ((df.core.get? (df.len - 2)).map Bar.close) none))) ∧
    (∀ m, extractVal (quoteMid quote) none = some m →
      payloadGet2 (getPayloadObj sym now quote (some df) lt) "market_state".data
          "price_current".data = some (Json.num m)) ∧
    payloadGet2 (getPayloadObj sym now quote (some df) lt) "market_state".data
        "price_sequence_60".data =
      some (Json.arr ((extractSeq (some (dropLastDf df).closes) 60).map Json.num)) ∧
    (20 < df.len →
      payloadGet3 (getPayloadObj sym now quote (some df) lt) "indicators".data
          "intraday_5m".data "close".data =
        some (jsonOfOpt (extractVal ((df.core.get? (df.len - 2)).map Bar.close) none)) ∧
      payloadGet3 (getPayloadObj sym now quote (some df) lt) "indicators".data
          "intraday_5m".data "macd_hist".data =
        some (jsonOfOpt (extractVal ((colGet df.derived "MACD_Hist".data).bind
          (fun col => col.get? (df.len - 2))) none)) ∧
      payloadGet3 (getPayloadObj sym now quote (some df) lt) "indicators".data
          "intraday_5m".data "macd_hist_prev".data =
        some (jsonOfOpt (extractVal ((colGet df.derived "MACD_Hist".data).bind
          (fun col => col.get? (df.len - 3))) none)) ∧
      payloadGet3 (getPayloadObj sym now quote (some df) lt) "indicators".data
          "intraday_5m".data "rsi7".data =
        some (jsonOfOpt (extractVal ((colGet df.derived "RSI7".data).bind
          (fun col => col.get? (df.len - 2))) none)) ∧
      (∀ col, colGet df.derived "MACD_Hist".data = some col →
        payloadGet3 (getPayloadObj sym now quote (some df) lt) "indicators".data
            "intraday_5m".data "macd_hist_seq_10".data =
          some (Json.arr ((extractSeq (some col.dropLast) 10).map Json.num))) ∧
      (∀ col, colGet df.derived "RSI7".data = some col →
        payloadGet3 (getPayloadObj sym now quote (some df) lt) "indicators".data
            "intraday_5m".data "rsi7_seq_10".data =
          some (Json.arr ((extractSeq (some col.dropLast) 10).map Json.num)))) := by
  cases hms : marketStatePart quote (some df) with
  | none => simp [getPayloadObj, hms] at hok
  | some ms =>
  cases hi5 : ind5mPart (some df) with
  | none => simp [getPayloadObj, hms, hi5] at hok
  | some i5 =>
  cases hi4 : ind4hPart lt with
  | none => simp [getPayloadObj, hms, hi5, hi4] at hok
  | some i4 =>
  have hpay : getPayloadObj sym now quote (some df) lt = some (Json.obj
      [("symbol".data, Json.str sym), ("timestamp".data, Json.str now),
       ("note".data, Json.str noteText), ("market_state".data, ms),
       ("indicators".data, Json.obj
         [("intraday_5m".data, i5), ("longterm_4h".data, i4)])]) := by
    simp [getPayloadObj, hms, hi5, hi4]
  cases hcp : currentPriceStep quote (some df) with
  | none => simp [marketStatePart, hcp] at hms
  | some cp =>
  have hmsv : ms = Json.obj
      [("price_current".data, jsonOfOpt (extractVal cp none)),
       ("open_interest".data, quoteOi quote),
       ("price_sequence_60".data, Json.arr ((priceSeqPart (some df)).map Json.num))] := by
    simp only [marketStatePart, hcp, Option.map_some'] at hms
    exact (Option.some.inj hms).symm
  subst hmsv
  have hproj1 : payloadGet2 (getPayloadObj sym now quote (some df) lt) "market_state".data
      "price_current".data = some (jsonOfOpt (extractVal cp none)) := by
    rw [hpay]; rfl
  refine ⟨?_, ?_, ?_, ?_⟩
  · intro hmid
    have hnz : ¬ df.len = 0 := by omega
    obtain ⟨b, hb⟩ := core_get?_some df (df.len - 2) (by omega)
    have hcp2 : currentPriceStep quote (some df) = some (some b.close) := by
      simp [currentPriceStep, hmid, hnz, ilocNeg_eq df 2 (by omega), hb]
      exact ⟨b, by simpa using hb, rfl⟩
    have hcpe : cp = some b.close := Option.some.inj (hcp.symm.trans hcp2)
    rw [hproj1, hb, hcpe]
    rfl
  · intro m hmid
    have hcp2 : currentPriceStep quote (some df) = some (quoteMid quote) := by
      simp [currentPriceStep, hmid]
    have hcpe : cp = quoteMid quote := Option.some.inj (hcp.symm.trans hcp2)
    rw [hproj1, hcpe, hmid]
    rfl
  · rw [hpay]
    rfl
  · intro h20
    simp only [ind5mPart, if_pos h20] at hi5
    cases hcur : ilocNeg df 2 with
    | none => rw [hcur] at hi5; simp at hi5
    | some curr =>
    cases hmc : colGet (dropLastDf df).derived "MACD_Hist".data with
    | none => rw [hcur, hmc] at hi5; simp at hi5
    | some macdCol =>
    cases hrc : colGet (dropLastDf df).derived "RSI7".data with
    | none => rw [hcur, hmc, hrc] at hi5; simp at hi5
    | some rsiCol =>
    rw [hcur, hmc, hrc] at hi5
    have hi5v : i5 = Json.obj
        [("close".data, jsonOfOpt (extractVal (some curr.close) none)),
         ("volume".data, volumeJson curr),
         ("ema20".data, jsonOfOpt (extractVal (rowDerivedNeg df "EMA20".data 2) none)),
         ("macd_hist".data, jsonOfOpt (extractVal (rowDerivedNeg df "MACD_Hist".data 2) none)),
         ("macd_hist_prev".data,
           jsonOfOpt (extractVal (rowDerivedNeg df "MACD_Hist".data 3) none)),
         ("macd_hist_seq_10".data, Json.arr ((extractSeq (some macdCol) 10).map Json.num)),
         ("rsi7".data, jsonOfOpt (extractVal (rowDerivedNeg df "RSI7".data 2) none)),
         ("rsi14".data, jsonOfOpt (extractVal (rowDerivedNeg df "RSI14".data 2) none)),
         ("rsi7_seq_10".data, Json.arr ((extractSeq (some rsiCol) 10).map Json.num))] :=
      (Option.some.inj hi5).symm
    subst hi5v
    have hcore : df.core.get? (df.len - 2) = some curr := by
      rw [← ilocNeg_eq df 2 (by omega)]
      exact hcur
    refine ⟨?_, ?_, ?_, ?_, ?_, ?_⟩
    · rw [hpay, hcore]
      rfl
    · rw [hpay, ← rowDerivedNeg_eq df "MACD_Hist".data 2 (by omega)]
      rfl
    · rw [hpay, ← rowDerivedNeg_eq df "MACD_Hist".data 3 (by omega)]
      rfl
    · rw [hpay, ← rowDerivedNeg_eq df "RSI7".data 2 (by omega)]
      rfl
    · intro col hcol
      have : macdCol = col.dropLast := by
        have h2 := hmc
        rw [show (dropLastDf df).derived = df.derived.map (fun p => (p.1, p.2.dropLast))
          from rfl, colGet_dropLast, hcol] at h2
        exact (Option.some.inj h2).symm
      subst this
      rw [hpay]
      rfl
    · intro col hcol
      have : rsiCol = col.dropLast := by
        have h2 := hrc
        rw [show (dropLastDf df).derived = df.derived.map (fun p => (p.1, p.2.dropLast))
          from rfl, colGet_dropLast, hcol] at h2
        exact (Option.some.inj h2).symm
      subst this
      rw [hpay]
      rfl

/-- Witness for C1: the 25-row series with last two closes 10.00
(confirmed) and 10.50 (unconfirmed) and no quote snapshot yields
`price_current = 10.00`. -/
theorem lookahead_guard_payload_witness :
    3 ≤ df25.len ∧ 20 < df25.len ∧
    payloadGet2 (getPayloadObj "TEST".data timeA none (some df25) none) "market_state".data
      "price_current".data = some (Json.num 10) := by
  have h := (lookahead_guard_payload df25 none none "TEST".data timeA (by decide) rfl).1 rfl
  refine ⟨by decide, by decide, ?_⟩
  rw [h]
  rw [show extractVal ((df25.core.get? (df25.len - 2)).map Bar.close) none = some 10 by decide]
  rfl

/-! ## C6 — cache freshness and fallback -/

/-- Lookup after an update. -/
theorem cacheLookup_update (c : Cache) (s dt : String) (d : CVal) (now : ℤ) (sym dty : String) :
    cacheLookup (updateCache c s dt d now) sym dty =
      if (s, dt) = (sym, dty) then some ⟨d, now⟩ else cacheLookup c sym dty := by
  simp [updateCache, cacheLookup]

/-- The unrefreshed cache is trivially fresh-or-old. -/
theorem freshOrOld_refl (c : Cache) (now : ℤ) : FreshOrOld c c now :=
  fun _ _ => Or.inl rfl

/-- Storing briefs only adds entries stamped `now`. -/
theorem storeBriefs_freshOrOld (now : ℤ) (c0 : Cache) :
    ∀ (items : List Brief) (acc : Cache), FreshOrOld c0 acc now →
      FreshOrOld c0 (storeBriefs items now acc) now := by
  intro items
  induction items with
  | nil => intro acc h; exact h
  | cons it rest ih =>
    intro acc h
    rw [storeBriefs, List.foldl_cons]
    apply ih
    intro sym dty
    cases hbs : briefSym it with
    | none => exact h sym dty
    | some s =>
      rw [cacheLookup_update]
      by_cases he : (s, "quote") = (sym, dty)
      · rw [if_pos he]; exact Or.inr ⟨_, rfl⟩
      · rw [if_neg he]; exact h sym dty

/-- Storing bar groups only adds entries stamped `now`. -/
theorem storeBars_freshOrOld (now : ℤ) (period : String) (c0 : Cache) :
    ∀ (groups : List (String × Df)) (acc : Cache), FreshOrOld c0 acc now →
      FreshOrOld c0 (storeBars groups period now acc) now := by
  intro groups
  induction groups with
  | nil => intro acc h; exact h
  | cons g rest ih =>
    intro acc h
    rw [storeBars, List.foldl_cons]
    apply ih
    intro sym dty
    rw [cacheLookup_update]
    by_cases he : (g.1, period) = (sym, dty)
    · rw [if_pos he]; exact Or.inr ⟨_, rfl⟩
    · rw [if_neg he]; exact h sym dty

/-- One per-period fetch only adds entries stamped `now`. -/
theorem fetchPeriodStep_freshOrOld (env : FetchEnv) (uniq : List String) (now : ℤ)
    (period : String) (c0 acc : Cache) (h : FreshOrOld c0 acc now) :
    FreshOrOld c0 (fetchPeriodStep env uniq now acc period) now := by
  unfold fetchPeriodStep
  cases hb : env.bars uniq period with
  | ok og =>
    cases og with
    | none => exact h
    | some groups => exact storeBars_freshOrOld now period c0 groups acc h
  | error _ => exact h

/-- After a batch refresh at `now`, every slot is the old slot or an
entry stamped `now`. -/
theorem batchFetchAll_freshOrOld (env : FetchEnv) (c : Cache) (syms : List String) (now : ℤ) :
    FreshOrOld c (batchFetchAll env c syms now) now := by
  unfold batchFetchAll
  by_cases hempty : syms.isEmpty
  · rw [if_pos hempty]; exact freshOrOld_refl c now
  · rw [if_neg hempty]
    apply fetchPeriodStep_freshOrOld
    apply fetchPeriodStep_freshOrOld
    cases hb : env.briefs ((syms.map normSym).eraseDups) with
    | ok items => exact storeBriefs_freshOrOld now c items c (freshOrOld_refl c now)
    | error _ => exact freshOrOld_refl c now

/-- When every network call raises, the refresh leaves the cache
unchanged (each failure is isolated and swallowed). -/
theorem batchFetchAll_error (env : FetchEnv) (c : Cache) (syms : List String) (now : ℤ)
    (h1 : ∀ r, env.briefs r = .error ()) (h2 : ∀ r pp, env.bars r pp = .error ()) :
    batchFetchAll env c syms now = c := by
  unfold batchFetchAll
  by_cases hempty : syms.isEmpty
  · rw [if_pos hempty]
  · rw [if_neg hempty]
    simp [fetchPeriodStep, h1, h2]

/-- `get_bars` on a fresh cache hit. -/
theorem getBars_hit (env : FetchEnv) (c : Cache) (sym p : String) (now ttl : ℤ) (v : CVal)
    (h : getFromCache c sym p now ttl = some v) :
    getBars env c sym p now ttl = (some v, c, 0) := by
  unfold getBars
  rw [h]

/-- `get_bars` on a miss: one refresh, one retried read. -/
theorem getBars_miss (env : FetchEnv) (c : Cache) (sym p : String) (now ttl : ℤ)
    (h : getFromCache c sym p now ttl = none) :
    getBars env c sym p now ttl =
      (getFromCache (batchFetchAll env c [sym] now) sym p now ttl,
       batchFetchAll env c [sym] now, 1) := by
  unfold getBars
  rw [h]

/-- `get_realtime_snapshot` on a fresh cache hit. -/
theorem getRealtimeSnapshot_hit (env : FetchEnv) (c : Cache) (sym : String) (now ttl : ℤ)
    (v : CVal) (h : getFromCache c sym "quote" now ttl = some v) :
    getRealtimeSnapshot env c sym now ttl = (some (buildSnapshot v), c, 0) := by
  unfold getRealtimeSnapshot
  rw [h]

/-- `get_realtime_snapshot` on a miss: one refresh, one retried read. -/
theorem getRealtimeSnapshot_miss (env : FetchEnv) (c : Cache) (sym : String) (now ttl : ℤ)
    (h : getFromCache c sym "quote" now ttl = none) :
    getRealtimeSnapshot env c sym now ttl =
      (match getFromCache (batchFetchAll env c [sym] now) sym "quote" now ttl with
       | some v => (some (buildSnapshot v), batchFetchAll env c [sym] now, 1)
       | none => (none, batchFetchAll env c [sym] now, 1)) := by
  unfold getRealtimeSnapshot
  rw [h]

/-- C6: a cached entry is returned iff its age `now - fetched_at` is
strictly below the ttl; on a miss, `get_bars` and
`get_realtime_snapshot` perform exactly one single-symbol refresh and
retry the read exactly once (the refresh count is 0 on a hit and never
exceeds 1); when every fetch of the fallback refresh fails the result is
absent (`None` / the empty dict) rather than an exception; and a second
read within the ttl window after a refreshing read returns the same
cached data with no further fetch. -/
theorem cache_ttl_and_fallback :
    (∀ c (sym dt : String) (now ttl : ℤ) v, getFromCache c sym dt now ttl = some v ↔
      ∃ e, cacheLookup c sym dt = some e ∧ now - e.ts < ttl ∧ v = e.data) ∧
    (∀ env c (sym p : String) (now ttl : ℤ),
      (getBars env c sym p now ttl).2.2 ≤ 1 ∧
      ((getBars env c sym p now ttl).2.2 = 0 ↔ (getFromCache c sym p now ttl).isSome) ∧
      ((getFromCache c sym p now ttl).isSome →
        (getBars env c sym p now ttl).1 = getFromCache c sym p now ttl ∧
        (getBars env c sym p now ttl).2.1 = c)) ∧
    (∀ env c (sym : String) (now ttl : ℤ),
      (getRealtimeSnapshot env c sym now ttl).2.2 ≤ 1 ∧
      ((getRealtimeSnapshot env c sym now ttl).2.2 = 0 ↔
        (getFromCache c sym "quote" now ttl).isSome)) ∧
    (∀ env c (sym p : String) (now ttl : ℤ), (∀ r, env.briefs r = .error ()) →
      (∀ r pp, env.bars r pp = .error ()) →
      getFromCache c sym p now ttl = none →
      (getBars env c sym p now ttl).1 = none) ∧
    (∀ env c (sym : String) (now ttl : ℤ), (∀ r, env.briefs r = .error ()) →
      (∀ r pp, env.bars r pp = .error ()) →
      getFromCache c sym "quote" now ttl = none →
      (getRealtimeSnapshot env c sym now ttl).1 = none) ∧
    (∀ env c (sym p : String) (now1 now2 ttl : ℤ) v,
      getFromCache c sym p now1 ttl = none →
      (getBars env c sym p now1 ttl).1 = some v →
      now1 ≤ now2 → now2 - now1 < ttl →
      (getBars env ((getBars env c sym p now1 ttl).2.1) sym p now2 ttl).1 = some v ∧
      (getBars env ((getBars env c sym p now1 ttl).2.1) sym p now2 ttl).2.2 = 0) := by
  refine ⟨?_, ?_, ?_, ?_, ?_, ?_⟩
  · intro c sym dt now ttl v
    unfold getFromCache
    cases h : cacheLookup c sym dt with
    | none => simp
    | some e =>
      by_cases hts : now - e.ts < ttl
      · simp only [if_pos hts, Option.some.injEq]
        constructor
        · intro hv
          exact ⟨e, rfl, hts, hv.symm⟩
        · rintro ⟨e2, he2, -, hv⟩
          rw [he2]
          exact hv.symm
      · simp only [if_neg hts]
        constructor
        · intro hv
          exact Option.noConfusion hv
        · rintro ⟨e2, he2, hts2, -⟩
          cases Option.some.inj he2
          exact absurd hts2 hts
  · intro env c sym p now ttl
    cases hg : getFromCache c sym p now ttl with
    | some v =>
      rw [getBars_hit env c sym p now ttl v hg]
      exact ⟨by simp, by simp, fun _ => ⟨rfl, rfl⟩⟩
    | none =>
      rw [getBars_miss env c sym p now ttl hg]
      exact ⟨by simp, by simp, fun hs => by simp at hs⟩
  · intro env c sym now ttl
    cases hg : getFromCache c sym "quote" now ttl with
    | some v =>
      rw [getRealtimeSnapshot_hit env c sym now ttl v hg]
      exact ⟨by simp, by simp⟩
    | none =>
      rw [getRealtimeSnapshot_miss env c sym now ttl hg]
      cases getFromCache (batchFetchAll env c [sym] now) sym "quote" now ttl with
      | some w => exact ⟨by simp, by simp⟩
      | none => exact ⟨by simp, by simp⟩
  · intro env c sym p now ttl h1 h2 hmiss
    rw [getBars_miss env c sym p now ttl hmiss, batchFetchAll_error env c [sym] now h1 h2,
      hmiss]
  · intro env c sym now ttl h1 h2 hmiss
    rw [getRealtimeSnapshot_miss env c sym now ttl hmiss,
      batchFetchAll_error env c [sym] now h1 h2, hmiss]
  · intro env c sym p now1 now2 ttl v hmiss h1 hle hwin
    have hb1 := getBars_miss env c sym p now1 ttl hmiss
    rw [hb1] at h1
    replace h1 : getFromCache (batchFetchAll env c [sym] now1) sym p now1 ttl = some v := h1
    have h21 : (getBars env c sym p now1 ttl).2.1 = batchFetchAll env c [sym] now1 := by
      rw [hb1]
    rw [h21]
    cases hl2 : cacheLookup (batchFetchAll env c [sym] now1) sym p with
    | none =>
      simp only [getFromCache, hl2] at h1
      exact Option.noConfusion h1
    | some e =>
      simp only [getFromCache, hl2] at h1
      by_cases hts : now1 - e.ts < ttl
      · rw [if_pos hts] at h1
        have hv : v = e.data := (Option.some.inj h1).symm
        rcases batchFetchAll_freshOrOld env c [sym] now1 sym p with hsame | ⟨d, hd⟩
        · rw [hsame] at hl2
          simp only [getFromCache, hl2, if_pos hts] at hmiss
          exact Option.noConfusion hmiss
        · have he : e = CacheEntry.mk d now1 := Option.some.inj (hl2.symm.trans hd)
          have hfresh2 : getFromCache (batchFetchAll env c [sym] now1) sym p now2 ttl =
              some v := by
            simp only [getFromCache, hl2]
            rw [if_pos (by rw [he]; simp only []; omega)]
            rw [hv]
          rw [getBars_hit env _ sym p now2 ttl v hfresh2]
          exact ⟨rfl, rfl⟩
      · rw [if_neg hts] at h1
        exact Option.noConfusion h1

/-- Witness for C6: a concrete environment in which a miss-refresh read
is followed by an in-window read returning the same frame with no fetch,
and an all-failing environment yields an absent result. -/
theorem cache_ttl_and_fallback_witness :
    ((getBars envOk ((getBars envOk [] "AAPL" "5min" 0 60).2.1) "AAPL" "5min" 30 60).1 =
      some (CVal.bars df0) ∧
     (getBars envOk ((getBars envOk [] "AAPL" "5min" 0 60).2.1) "AAPL" "5min" 30 60).2.2 = 0) ∧
    (getBars envFail [] "AAPL" "5min" 0 60).1 = none := by
  refine ⟨?_, ?_⟩
  · exact cache_ttl_and_fallback.2.2.2.2.2 envOk [] "AAPL" "5min" 0 30 60 (CVal.bars df0)
      rfl rfl (by decide) (by decide)
  · exact cache_ttl_and_fallback.2.2.2.1 envFail [] "AAPL" "5min" 0 60
      (fun _ => rfl) (fun _ _ => rfl) rfl
